import Mathlib

/-!
Verification development for the pluggable authentication middleware of the
dapr-mcp server (Go package auth). Go strings are modelled as Lean strings
whose character lists carry the content; each Go standard-library string
operation used by the source is embedded as a structural function on the
character list, so that everything evaluates by kernel reduction.
-/

namespace DaprAuth

/-- Embedding of strings.HasPrefix: pre is a prefix of s. -/
def hasPrefixGo (s pre : String) : Bool :=
  pre.data.isPrefixOf s.data

/-- Embedding of strings.HasSuffix: suf is a suffix of s. -/
def hasSuffixGo (s suf : String) : Bool :=
  suf.data.isSuffixOf s.data

/-- Embedding of strings.TrimPrefix: remove pre from the front of s when present. -/
def trimPrefixGo (s pre : String) : String :=
  if hasPrefixGo s pre then ⟨s.data.drop pre.data.length⟩ else s

/-- Embedding of strings.TrimSuffix: remove suf from the end of s when present. -/
def trimSuffixGo (s suf : String) : String :=
  if hasSuffixGo s suf then ⟨s.data.take (s.data.length - suf.data.length)⟩ else s

/-- Embedding of strings.ToLower, restricted to ASCII case mapping, which is the
only case mapping the middleware inputs exercise. -/
def toLowerGo (s : String) : String :=
  ⟨s.data.map Char.toLower⟩

/-- Slicing s from character index n onward, the embedding of the Go byte
slice s[n:] at points where the first n bytes are ASCII. -/
def dropCharsGo (s : String) (n : Nat) : String :=
  ⟨s.data.drop n⟩

/-- Embedding of strings.SplitN(s, sep, 2): the part before the first sep, and
when sep occurs, the remainder after it. -/
def splitN2Go (sep : Char) (s : String) : List String :=
  let pre := s.data.takeWhile (fun c => c ≠ sep)
  let rest := s.data.dropWhile (fun c => c ≠ sep)
  match rest with
  | [] => [⟨pre⟩]
  | _ :: tail => [⟨pre⟩, ⟨tail⟩]

/-- AuthMode is a string type in the source. -/
abbrev AuthMode := String

/-- ModeDisabled disables authentication. -/
def ModeDisabled : AuthMode := "disabled"

/-- ModeOIDC uses OIDC for authentication. -/
def ModeOIDC : AuthMode := "oidc"

/-- ModeSPIFFE uses SPIFFE JWT-SVIDs. -/
def ModeSPIFFE : AuthMode := "spiffe"

/-- ModeHybrid accepts both OIDC and SPIFFE tokens. -/
def ModeHybrid : AuthMode := "hybrid"

/-- ModeDaprSentry uses Dapr Sentry JWT tokens. -/
def ModeDaprSentry : AuthMode := "dapr-sentry"

/-- Kinds of the sentinel errors declared in the auth package. -/
inductive AuthErrorKind where
  | noToken
  | invalidToken
  | tokenExpired
  | invalidIssuer
  | invalidAudience
  | authDisabled
  | unsupportedMethod
deriving DecidableEq, Repr

/-- Embedding of a Go error value: the sentinel it wraps plus the full
formatted message. -/
structure AuthError where
  kind : AuthErrorKind
  msg : String
deriving DecidableEq, Repr

/-- Sentinel ErrNoToken. -/
def ErrNoToken : AuthError := ⟨.noToken, "no authentication token provided"⟩

/-- Sentinel ErrInvalidToken. -/
def ErrInvalidToken : AuthError := ⟨.invalidToken, "invalid authentication token"⟩

/-- Sentinel ErrTokenExpired. -/
def ErrTokenExpired : AuthError := ⟨.tokenExpired, "authentication token expired"⟩

/-- Sentinel ErrInvalidIssuer. -/
def ErrInvalidIssuer : AuthError := ⟨.invalidIssuer, "invalid token issuer"⟩

/-- Sentinel ErrInvalidAudience. -/
def ErrInvalidAudience : AuthError := ⟨.invalidAudience, "invalid token audience"⟩

/-- Embedding of fmt.Errorf with a wrapped sentinel: keeps the sentinel kind
and appends the detail to the message. -/
def wrapErr (base : AuthError) (detail : String) : AuthError :=
  ⟨base.kind, base.msg ++ ": " ++ detail⟩

/-- A claim value stored in Identity.Claims: the source stores strings for
jti and use, and int64 unix seconds for iat and exp. -/
inductive ClaimValue where
  | str (s : String)
  | int (n : Int)
deriving DecidableEq, Repr

/-- Embedding of the Identity struct. Claims is the insertion-ordered
association list standing for the Go claims map. -/
structure Identity where
  Subject : String
  Issuer : String
  Audience : List String
  Email : String
  Name : String
  Claims : List (String × ClaimValue)
  AuthMethod : AuthMode
deriving DecidableEq, Repr

/-- Embedding of OIDCConfig. -/
structure OIDCConfig where
  Enabled : Bool
  IssuerURL : String
  ClientID : String
  AllowedAlgorithms : List String
  SkipIssuerCheck : Bool
deriving DecidableEq, Repr

/-- Embedding of SPIFFEConfig. -/
structure SPIFFEConfig where
  Enabled : Bool
  TrustDomain : String
  ServerID : String
  EndpointSocket : String
  AllowedClients : List String
deriving DecidableEq, Repr

/-- Embedding of DaprSentryConfig. RefreshInterval is in abstract time units
matching the integer clock used below. -/
structure DaprSentryConfig where
  Enabled : Bool
  JWKSUrl : String
  TrustDomain : String
  Audience : String
  TokenHeader : String
  RefreshInterval : Int
deriving DecidableEq, Repr

/-- Embedding of the auth Config struct. -/
structure Config where
  Enabled : Bool
  Mode : AuthMode
  SkipPaths : List String
  OIDC : OIDCConfig
  SPIFFE : SPIFFEConfig
  DaprSentry : DaprSentryConfig
deriving DecidableEq, Repr

/-- Embedding of the daprSentryClaims struct: the embedded jwt.Claims fields
plus the private use field. Absent optional claims are none; absent string
claims are the empty string, as in go-jose. NumericDate values are unix
seconds. -/
structure daprSentryClaims where
  Issuer : String
  Subject : String
  Audience : List String
  Expiry : Option Int
  NotBefore : Option Int
  IssuedAt : Option Int
  ID : String
  Use : String
deriving DecidableEq, Repr

/-- Embedding of containsAudience: the audience list contains the expected
audience. -/
def containsAudience (audiences : List String) (expected : String) : Bool :=
  audiences.any (fun aud => aud == expected)

/-- Embedding of isValidSPIFFEID: the subject starts with the spiffe scheme
and the part of the remainder before the first slash equals the trust
domain. SplitN with limit 2 always returns a nonempty list, so the length
zero guard of the source never fires. -/
def isValidSPIFFEID (subject trustDomain : String) : Bool :=
  if !(hasPrefixGo subject "spiffe://") then
    false
  else
    let withoutScheme := trimPrefixGo subject "spiffe://"
    let parts := splitN2Go '/' withoutScheme
    match parts with
    | [] => false
    | p0 :: _ => p0 == trustDomain

/-- Construction of the Identity claims bag from lines 240 to 252 of the
source: jti when the token ID is nonempty, use when nonempty, iat and exp as
unix seconds when present. -/
def buildIdentityClaims (c : daprSentryClaims) : List (String × ClaimValue) :=
  (if c.ID ≠ "" then [("jti", ClaimValue.str c.ID)] else []) ++
  (if c.Use ≠ "" then [("use", ClaimValue.str c.Use)] else []) ++
  (match c.IssuedAt with | some t => [("iat", ClaimValue.int t)] | none => []) ++
  (match c.Expiry with | some t => [("exp", ClaimValue.int t)] | none => [])

/-- Expiry test of source lines 164 to 177: the expiry claim is present and
now is strictly after it. -/
def expiryInPast (now : Int) (c : daprSentryClaims) : Bool :=
  match c.Expiry with | some e => decide (now > e) | none => false

/-- NotBefore test of source lines 179 to 192: the notBefore claim is present
and now is strictly before it. -/
def notBeforeInFuture (now : Int) (c : daprSentryClaims) : Bool :=
  match c.NotBefore with | some nbf => decide (now < nbf) | none => false

/-- Claims-validation phase of DaprSentryAuthenticator.Authenticate, source
lines 161 to 260: the code that runs after the token parsed, the signing key
resolved, and the signature verified. The clock now is in unix seconds, and
time.After and time.Before are strict comparisons. -/
def validateClaims (cfg : DaprSentryConfig) (now : Int) (c : daprSentryClaims) :
    Except AuthError Identity :=
  if expiryInPast now c then
    Except.error ErrTokenExpired
  else if notBeforeInFuture now c then
    Except.error (wrapErr ErrInvalidToken "token not yet valid")
  else if cfg.Audience ≠ "" && !(containsAudience c.Audience cfg.Audience) then
    Except.error (wrapErr ErrInvalidAudience
      ("expected audience \"" ++ cfg.Audience ++ "\""))
  else if c.Subject == "" then
    Except.error (wrapErr ErrInvalidToken "missing subject claim")
  else if !(isValidSPIFFEID c.Subject cfg.TrustDomain) then
    Except.error (wrapErr ErrInvalidToken
      ("invalid trust domain in subject \"" ++ c.Subject ++ "\", expected \"" ++
        cfg.TrustDomain ++ "\""))
  else
    Except.ok
      { Subject := c.Subject
        Issuer := ""
        Audience := c.Audience
        Email := ""
        Name := ""
        Claims := buildIdentityClaims c
        AuthMethod := ModeDaprSentry }

/-- Embedding of jose.JSONWebKey: the key ID tag and an abstract identifier
for the raw key material. -/
structure JSONWebKey where
  KeyID : String
  Key : Nat
deriving DecidableEq, Repr

/-- Embedding of the JWKS cache fields of DaprSentryAuthenticator: the
cached key set pointer and the timestamp of the last successful refresh. -/
structure JWKSState where
  jwks : Option (List JSONWebKey)
  lastRefresh : Int
deriving DecidableEq, Repr

/-- Environment of one execution of refreshJWKS: the outcome of each of its
fallible external steps, in source order. -/
structure FetchEnv where
  reqErr : Option String
  doErr : Option String
  statusCode : Nat
  readErr : Option String
  parseResult : Except String (List JSONWebKey)
deriving Repr

/-- Embedding of DaprSentryAuthenticator.refreshJWKS, source lines 372 to
451: each failure returns before the cache is touched; success replaces the
key set and stamps lastRefresh with the current time. -/
def refreshJWKS (env : FetchEnv) (now : Int) (st : JWKSState) :
    JWKSState × Option String :=
  match env.reqErr with
  | some e => (st, some ("failed to create request: " ++ e))
  | none =>
    match env.doErr with
    | some e => (st, some ("failed to fetch JWKS: " ++ e))
    | none =>
      if env.statusCode ≠ 200 then
        (st, some ("JWKS endpoint returned status " ++ toString env.statusCode))
      else
        match env.readErr with
        | some e => (st, some ("failed to read JWKS response: " ++ e))
        | none =>
          match env.parseResult with
          | Except.error e => (st, some ("failed to parse JWKS: " ++ e))
          | Except.ok keys => (⟨some keys, now⟩, none)

/-- Embedding of the go-jose JSONWebKeySet.Key lookup: all keys whose key ID
matches. -/
def jwksKeyByID (keys : List JSONWebKey) (kid : String) : List JSONWebKey :=
  keys.filter (fun k => k.KeyID == kid)

/-- Key-ID match step of getSigningKey, source lines 314 to 328: a specific
key ID selects the matching keys, an empty key ID selects all keys. -/
def selectMatchingKeys (keys : List JSONWebKey) (keyID : String) :
    List JSONWebKey :=
  if keyID ≠ "" then jwksKeyByID keys keyID else keys

/-- Embedding of DaprSentryAuthenticator.getSigningKey, source lines 272 to
369. The two FetchEnv arguments are the environments of the at most two
refresh attempts: the staleness refresh, whose failure is logged and
ignored, and the key-miss refresh, whose failure aborts. The result pairs
the updated cache state with the raw key material of the first matching
key, or an error. -/
def getSigningKey (cfg : DaprSentryConfig) (now : Int) (st0 : JWKSState)
    (envStale envMiss : FetchEnv) (keyID : String) :
    JWKSState × Except String Nat :=
  let st1 :=
    if now - st0.lastRefresh > cfg.RefreshInterval then
      (refreshJWKS envStale now st0).1
    else st0
  match st1.jwks with
  | none => (st1, Except.error "no JWKS available")
  | some keys =>
    match selectMatchingKeys keys keyID with
    | k :: _ => (st1, Except.ok k.Key)
    | [] =>
      let res := refreshJWKS envMiss now st1
      match res.2 with
      | some e =>
        (res.1, Except.error
          ("key \"" ++ keyID ++ "\" not found and refresh failed: " ++ e))
      | none =>
        match selectMatchingKeys (res.1.jwks.getD []) keyID with
        | k :: _ => (res.1, Except.ok k.Key)
        | [] =>
          (res.1, Except.error ("key \"" ++ keyID ++ "\" not found in JWKS"))

/-- Embedding of one JWT header as read by Authenticate: only the key ID is
consulted. -/
structure JWTHeader where
  KeyID : String
deriving DecidableEq, Repr

/-- Outcome of jwt.ParseSigned on the raw token, together with the
cryptographic verifier of the parsed token: given raw key material, either
the signature fails or the claims are produced. -/
inductive ParseResult where
  | err (msg : String)
  | parsed (headers : List JWTHeader) (verify : Nat → Except String daprSentryClaims)

/-- Embedding of DaprSentryAuthenticator.Authenticate, source lines 99 to
260, over the abstract parse and verification outcomes. Returns the updated
cache state and the authentication result. -/
def Authenticate (cfg : DaprSentryConfig) (now : Int) (st : JWKSState)
    (envStale envMiss : FetchEnv) (p : ParseResult) :
    JWKSState × Except AuthError Identity :=
  match p with
  | ParseResult.err m =>
    (st, Except.error (wrapErr ErrInvalidToken ("failed to parse JWT: " ++ m)))
  | ParseResult.parsed headers verify =>
    match headers with
    | [] => (st, Except.error (wrapErr ErrInvalidToken "no JWT headers"))
    | header :: _ =>
      let keyRes := getSigningKey cfg now st envStale envMiss header.KeyID
      match keyRes.2 with
      | Except.error m => (keyRes.1, Except.error (wrapErr ErrInvalidToken m))
      | Except.ok key =>
        match verify key with
        | Except.error m =>
          (keyRes.1, Except.error
            (wrapErr ErrInvalidToken ("failed to verify JWT signature: " ++ m)))
        | Except.ok claims => (keyRes.1, validateClaims cfg now claims)

/-- Abstract authenticator as seen by the middleware: the static mode tag
and the Authenticate behavior on a given token. -/
structure AbsAuthenticator where
  ModeTag : AuthMode
  authenticate : String → Except AuthError Identity

/-- Embedding of Middleware.shouldSkip, source lines 155 to 169: exact match,
or prefix match against a pattern ending in a star with the star stripped. -/
def shouldSkip (skipPaths : List String) (path : String) : Bool :=
  skipPaths.any (fun skipPath =>
    path == skipPath ||
      (hasSuffixGo skipPath "*" && hasPrefixGo path (trimSuffixGo skipPath "*")))

/-- Embedding of Middleware.extractTokenWithSource, source lines 172 to 194.
Request headers are modelled by the lookup function get, standing for
r.Header.Get. Returns the token and the name of the header it came from. -/
def extractTokenWithSource (cfg : Config) (get : String → String) :
    String × String :=
  if cfg.DaprSentry.TokenHeader ≠ "" && cfg.DaprSentry.TokenHeader ≠ "Authorization" then
    let tok := get cfg.DaprSentry.TokenHeader
    if tok ≠ "" then
      (tok, cfg.DaprSentry.TokenHeader)
    else
      extractFromAuthorization get
  else
    extractFromAuthorization get
where
  /-- Fallback to the Authorization header, lines 181 to 193 of the source. -/
  extractFromAuthorization (get : String → String) : String × String :=
    let auth := get "Authorization"
    if auth == "" then
      ("", "")
    else if hasPrefixGo (toLowerGo auth) "bearer " then
      (trimPrefixGo (dropCharsGo auth 7) " ", "Authorization (Bearer)")
    else
      (auth, "Authorization (raw)")

/-- The authenticator loop of Middleware.Handler, source lines 101 to 128:
first success wins and stops the iteration. Also returns the mode tags of
the authenticators that were actually invoked, in invocation order. -/
def tryAuthenticators (auths : List AbsAuthenticator) (token : String) :
    Option Identity × List AuthMode :=
  match auths with
  | [] => (none, [])
  | a :: rest =>
    match a.authenticate token with
    | Except.ok id => (some id, [a.ModeTag])
    | Except.error _ =>
      let r := tryAuthenticators rest token
      (r.1, a.ModeTag :: r.2)

/-- Observable outcome of the middleware on one request: either the wrapped
handler runs, with the identity attached to the context when present, or the
request is rejected with 401 and the given body. -/
inductive HandlerResult where
  | passThrough (identity : Option Identity)
  | unauthorized (body : String)
deriving DecidableEq, Repr

/-- Embedding of Middleware.Handler, source lines 31 to 152: skip check,
disabled check, token extraction, authenticator trials, rejection or
pass-through. The second component is the list of invoked authenticator
mode tags. -/
def Handler (cfg : Config) (auths : List AbsAuthenticator) (path : String)
    (get : String → String) : HandlerResult × List AuthMode :=
  if shouldSkip cfg.SkipPaths path then
    (HandlerResult.passThrough none, [])
  else if !cfg.Enabled || cfg.Mode == ModeDisabled then
    (HandlerResult.passThrough none, [])
  else
    let token := (extractTokenWithSource cfg get).1
    if token == "" then
      (HandlerResult.unauthorized "Unauthorized: no token provided", [])
    else
      let r := tryAuthenticators auths token
      match r.1 with
      | some id => (HandlerResult.passThrough (some id), r.2)
      | none => (HandlerResult.unauthorized "Unauthorized: invalid token", r.2)

/-! Helper lemmas about the embedded string operations. -/

/-- Rebuilding a string from its character data is the identity. -/
theorem mk_data : ∀ s : String, String.mk s.data = s := fun ⟨_⟩ => rfl

/-- Characterization of hasPrefixGo by an append decomposition. -/
theorem hasPrefixGo_iff (s pre : String) :
    hasPrefixGo s pre = true ↔ ∃ r : String, s = pre ++ r := by
  unfold hasPrefixGo
  rw [ List.isPrefixOf_iff_prefix]
  constructor
  · rintro ⟨t, ht⟩
    refine ⟨String.mk t, ?_⟩
    apply String.ext
    rw [String.data_append]
    exact ht.symm
  · rintro ⟨r, rfl⟩
    exact ⟨r.data, (String.data_append pre r).symm⟩

/-- Characterization of hasSuffixGo by an append decomposition. -/
theorem hasSuffixGo_iff (s suf : String) :
    hasSuffixGo s suf = true ↔ ∃ q : String, s = q ++ suf := by
  unfold hasSuffixGo
  rw [ List.isSuffixOf_iff_suffix]
  constructor
  · rintro ⟨t, ht⟩
    refine ⟨String.mk t, ?_⟩
    apply String.ext
    rw [String.data_append]
    exact ht.symm
  · rintro ⟨q, rfl⟩
    exact ⟨q.data, (String.data_append q suf).symm⟩

/-- trimPrefixGo removes the appended copy of the given leading string. -/
theorem trimPrefixGo_append (p r : String) : trimPrefixGo (p ++ r) p = r := by
  unfold trimPrefixGo
  rw [if_pos ((hasPrefixGo_iff (p ++ r) p).mpr ⟨r, rfl⟩)]
  apply String.ext
  show ((p ++ r).data.drop p.data.length) = r.data
  rw [String.data_append]
  exact List.drop_left p.data r.data

/-- trimSuffixGo removes the appended copy of the given trailing string. -/
theorem trimSuffixGo_append (q suf : String) : trimSuffixGo (q ++ suf) suf = q := by
  unfold trimSuffixGo
  rw [if_pos ((hasSuffixGo_iff (q ++ suf) suf).mpr ⟨q, rfl⟩)]
  apply String.ext
  show ((q ++ suf).data.take ((q ++ suf).data.length - suf.data.length)) = q.data
  rw [String.data_append, List.length_append,
    Nat.add_sub_cancel]
  exact List.take_left q.data suf.data

/-- A string whose lowercasing has seven characters is consumed entirely by
dropping seven characters. -/
theorem dropCharsGo_of_toLowerGo_bearer (s : String)
    (h : toLowerGo s = "bearer ") : dropCharsGo s 7 = "" := by
  have hlen : s.data.length = 7 := by
    have := congrArg (fun t : String => t.data.length) h
    simpa [toLowerGo] using this
  apply String.ext
  show s.data.drop 7 = []
  exact List.drop_eq_nil_of_le (by omega)

/-- The Identity built on the success path of Authenticate. -/
def successIdentity (c : daprSentryClaims) : Identity :=
  { Subject := c.Subject
    Issuer := ""
    Audience := c.Audience
    Email := ""
    Name := ""
    Claims := buildIdentityClaims c
    AuthMethod := ModeDaprSentry }

/-- When every validation test passes, validateClaims returns the built
identity. -/
theorem validateClaims_ok (cfg : DaprSentryConfig) (now : Int)
    (c : daprSentryClaims)
    (hexp : expiryInPast now c = false)
    (hnbf : notBeforeInFuture now c = false)
    (haud : cfg.Audience = "" ∨ containsAudience c.Audience cfg.Audience = true)
    (hsub : c.Subject ≠ "")
    (hdom : isValidSPIFFEID c.Subject cfg.TrustDomain = true) :
    validateClaims cfg now c = Except.ok (successIdentity c) := by
  have h3 : (cfg.Audience ≠ "" && !containsAudience c.Audience cfg.Audience) = false := by
    rcases haud with h | h
    · simp [h]
    · simp [h]
  unfold validateClaims
  rw [hexp, hnbf, h3, hdom]
  simp [hsub, successIdentity]

/-- Membership of the jti entry in the claims bag. -/
theorem jti_mem_claims (c : daprSentryClaims) :
    (("jti", ClaimValue.str c.ID) ∈ buildIdentityClaims c) ↔ c.ID ≠ "" := by
  by_cases h : c.ID = "" <;>
    cases hI : c.IssuedAt <;> cases hE : c.Expiry <;>
      by_cases hU : c.Use = "" <;>
        simp [buildIdentityClaims, h, hU, hI, hE]

/-- Membership of the use entry in the claims bag. -/
theorem use_mem_claims (c : daprSentryClaims) :
    (("use", ClaimValue.str c.Use) ∈ buildIdentityClaims c) ↔ c.Use ≠ "" := by
  by_cases h : c.Use = "" <;>
    cases hI : c.IssuedAt <;> cases hE : c.Expiry <;>
      by_cases hJ : c.ID = "" <;>
        simp [buildIdentityClaims, h, hJ, hI, hE]

/-- Membership of the iat entry in the claims bag. -/
theorem iat_mem_claims (c : daprSentryClaims) (t : Int) :
    (("iat", ClaimValue.int t) ∈ buildIdentityClaims c) ↔ c.IssuedAt = some t := by
  cases hI : c.IssuedAt <;> cases hE : c.Expiry <;>
    by_cases hJ : c.ID = "" <;> by_cases hU : c.Use = "" <;>
      simp [buildIdentityClaims, hJ, hU, hI, hE, eq_comm]

/-- Membership of the exp entry in the claims bag. -/
theorem exp_mem_claims (c : daprSentryClaims) (t : Int) :
    (("exp", ClaimValue.int t) ∈ buildIdentityClaims c) ↔ c.Expiry = some t := by
  cases hI : c.IssuedAt <;> cases hE : c.Expiry <;>
    by_cases hJ : c.ID = "" <;> by_cases hU : c.Use = "" <;>
      simp [buildIdentityClaims, hJ, hU, hI, hE, eq_comm]

/-- Reduction of Authenticate to the claims-validation phase once parse, key
resolution and signature verification all succeed. -/
theorem Authenticate_verified (cfg : DaprSentryConfig) (now : Int)
    (st : JWKSState) (envStale envMiss : FetchEnv) (h0 : JWTHeader)
    (hs : List JWTHeader) (verify : Nat → Except String daprSentryClaims)
    (key : Nat) (c : daprSentryClaims)
    (hkey : (getSigningKey cfg now st envStale envMiss h0.KeyID).2 = Except.ok key)
    (hver : verify key = Except.ok c) :
    (Authenticate cfg now st envStale envMiss
        (ParseResult.parsed (h0 :: hs) verify)).2 = validateClaims cfg now c := by
  simp only [Authenticate]
  rw [hkey]
  simp only []
  rw [hver]

/-- Decidable equality of Except results, used to evaluate the model on
concrete inputs. -/
instance instDecEqExcept {ε α : Type} [DecidableEq ε] [DecidableEq α] :
    DecidableEq (Except ε α) := fun x y =>
  match x, y with
  | Except.ok a, Except.ok b =>
    if h : a = b then isTrue (by rw [h])
    else isFalse (fun hc => h (Except.ok.inj hc))
  | Except.ok _, Except.error _ => isFalse (fun hc => Except.noConfusion hc)
  | Except.error _, Except.ok _ => isFalse (fun hc => Except.noConfusion hc)
  | Except.error e, Except.error f =>
    if h : e = f then isTrue (by rw [h])
    else isFalse (fun hc => h (Except.error.inj hc))

/-! Concrete fixtures used by the witness theorems. -/

/-- Fixture: a control-plane configuration with trust domain public. -/
def cfgFix : DaprSentryConfig :=
  { Enabled := true
    JWKSUrl := "http://sentry/jwks"
    TrustDomain := "public"
    Audience := "public"
    TokenHeader := "dapr-api-token"
    RefreshInterval := 300 }

/-- Fixture: a freshly refreshed cache holding one key. -/
def stFix : JWKSState := ⟨some [⟨"kid1", 1⟩], 50⟩

/-- Fixture: a fetch environment whose fetch would succeed with no keys. -/
def envFix : FetchEnv := ⟨none, none, 200, none, Except.ok []⟩

/-- Fixture: verified claims of a valid control-plane token. -/
def claimsFix : daprSentryClaims :=
  { Issuer := ""
    Subject := "spiffe://public/ns/default/app"
    Audience := ["public"]
    Expiry := some 200
    NotBefore := some 40
    IssuedAt := some 45
    ID := "jti-1"
    Use := "sig" }

/-- Fixture: a verifier that accepts exactly key material 1. -/
def verifyFix : Nat → Except String daprSentryClaims :=
  fun k => if k == 1 then Except.ok claimsFix else Except.error "signature mismatch"

/-- Fixture: claims whose expiry lies in the past of the fixture clock. -/
def claimsExpiredFix : daprSentryClaims :=
  { claimsFix with Expiry := some 90 }

/-- Fixture: a verifier producing the expired claims under key material 1. -/
def verifyExpiredFix : Nat → Except String daprSentryClaims :=
  fun k => if k == 1 then Except.ok claimsExpiredFix else Except.error "signature mismatch"

/-- C1: a control-plane token that parses, whose signature verifies against a
cached key, whose expiry is not in the past, whose notBefore is not in the
future, whose audience passes the configured check, and whose nonempty
subject is a SPIFFE URI in the configured trust domain, is accepted by
DaprSentryAuthenticator.Authenticate with an Identity whose AuthMethod is
dapr-sentry, whose Subject is the token subject, whose Audience is the token
audience list, and whose Claims hold jti, use, iat and exp exactly when
those claims are present in the token. -/
theorem C1_authenticate_success (cfg : DaprSentryConfig) (now : Int)
    (st : JWKSState) (envStale envMiss : FetchEnv) (h0 : JWTHeader)
    (hs : List JWTHeader) (verify : Nat → Except String daprSentryClaims)
    (key : Nat) (c : daprSentryClaims)
    (hkey : (getSigningKey cfg now st envStale envMiss h0.KeyID).2 = Except.ok key)
    (hver : verify key = Except.ok c)
    (hexp : expiryInPast now c = false)
    (hnbf : notBeforeInFuture now c = false)
    (haud : cfg.Audience = "" ∨ containsAudience c.Audience cfg.Audience = true)
    (hsub : c.Subject ≠ "")
    (hdom : isValidSPIFFEID c.Subject cfg.TrustDomain = true) :
    ∃ id : Identity,
      (Authenticate cfg now st envStale envMiss
          (ParseResult.parsed (h0 :: hs) verify)).2 = Except.ok id ∧
      id.AuthMethod = ModeDaprSentry ∧
      id.Subject = c.Subject ∧
      id.Audience = c.Audience ∧
      ((("jti", ClaimValue.str c.ID) ∈ id.Claims) ↔ c.ID ≠ "") ∧
      ((("use", ClaimValue.str c.Use) ∈ id.Claims) ↔ c.Use ≠ "") ∧
      (∀ t : Int, (("iat", ClaimValue.int t) ∈ id.Claims) ↔ c.IssuedAt = some t) ∧
      (∀ t : Int, (("exp", ClaimValue.int t) ∈ id.Claims) ↔ c.Expiry = some t) := by
  refine ⟨successIdentity c, ?_, rfl, rfl, rfl, jti_mem_claims c, use_mem_claims c,
    fun t => iat_mem_claims c t, fun t => exp_mem_claims c t⟩
  rw [Authenticate_verified cfg now st envStale envMiss h0 hs verify key c hkey hver]
  exact validateClaims_ok cfg now c hexp hnbf haud hsub hdom

/-- Witness for C1 at the concrete fixture token. -/
theorem C1_witness :
    ∃ id : Identity,
      (Authenticate cfgFix 100 stFix envFix envFix
          (ParseResult.parsed [⟨"kid1"⟩] verifyFix)).2 = Except.ok id ∧
      id.AuthMethod = ModeDaprSentry ∧
      id.Subject = claimsFix.Subject ∧
      id.Audience = claimsFix.Audience ∧
      ((("jti", ClaimValue.str claimsFix.ID) ∈ id.Claims) ↔ claimsFix.ID ≠ "") ∧
      ((("use", ClaimValue.str claimsFix.Use) ∈ id.Claims) ↔ claimsFix.Use ≠ "") ∧
      (∀ t : Int, (("iat", ClaimValue.int t) ∈ id.Claims) ↔ claimsFix.IssuedAt = some t) ∧
      (∀ t : Int, (("exp", ClaimValue.int t) ∈ id.Claims) ↔ claimsFix.Expiry = some t) :=
  C1_authenticate_success cfgFix 100 stFix envFix envFix ⟨"kid1"⟩ [] verifyFix 1 claimsFix
    (by decide) (by decide) (by decide) (by decide) (Or.inr (by decide))
    (by decide) (by decide)

/-- C2: a control-plane token whose signature verifies and whose expiry claim
is present and strictly before the verification time is rejected with the
TokenExpired sentinel, whose kind differs from the generic InvalidToken
sentinel, regardless of every other claim: the expiry test runs before the
notBefore, audience, subject and trust-domain tests. -/
theorem C2_expired_token (cfg : DaprSentryConfig) (now : Int)
    (st : JWKSState) (envStale envMiss : FetchEnv) (h0 : JWTHeader)
    (hs : List JWTHeader) (verify : Nat → Except String daprSentryClaims)
    (key : Nat) (c : daprSentryClaims) (e : Int)
    (hkey : (getSigningKey cfg now st envStale envMiss h0.KeyID).2 = Except.ok key)
    (hver : verify key = Except.ok c)
    (hexp : c.Expiry = some e)
    (hlt : e < now) :
    (Authenticate cfg now st envStale envMiss
        (ParseResult.parsed (h0 :: hs) verify)).2 = Except.error ErrTokenExpired ∧
    ErrTokenExpired.kind = AuthErrorKind.tokenExpired ∧
    ErrTokenExpired.kind ≠ ErrInvalidToken.kind := by
  refine ⟨?_, rfl, by decide⟩
  rw [Authenticate_verified cfg now st envStale envMiss h0 hs verify key c hkey hver]
  have hpast : expiryInPast now c = true := by
    unfold expiryInPast
    rw [hexp]
    simpa using hlt
  unfold validateClaims
  rw [hpast]
  simp

/-- Witness for C2 at the concrete expired fixture token. -/
theorem C2_witness :
    (Authenticate cfgFix 100 stFix envFix envFix
        (ParseResult.parsed [⟨"kid1"⟩] verifyExpiredFix)).2 =
      Except.error ErrTokenExpired ∧
    ErrTokenExpired.kind = AuthErrorKind.tokenExpired ∧
    ErrTokenExpired.kind ≠ ErrInvalidToken.kind :=
  C2_expired_token cfgFix 100 stFix envFix envFix ⟨"kid1"⟩ [] verifyExpiredFix 1
    claimsExpiredFix 90 (by decide) (by decide) rfl (by decide)

/-- Shape of splitN2Go: the head is always the segment before the first
separator. -/
theorem splitN2Go_eq (sep : Char) (s : String) :
    splitN2Go sep s = String.mk (s.data.takeWhile (fun c => c ≠ sep)) ::
      (match s.data.dropWhile (fun c => c ≠ sep) with
       | [] => []
       | _ :: tail => [String.mk tail]) := by
  unfold splitN2Go
  cases hd : s.data.dropWhile (fun c => c ≠ sep) <;> simp [hd]

/-- Characterization of isValidSPIFFEID: the subject decomposes as the
spiffe scheme followed by a remainder whose segment before the first slash
is the trust domain; the remainder may lack a slash entirely. -/
theorem isValidSPIFFEID_iff (subject trustDomain : String) :
    isValidSPIFFEID subject trustDomain = true ↔
      ∃ rest : String, subject = "spiffe://" ++ rest ∧
        String.mk (rest.data.takeWhile (fun ch => ch ≠ '/')) = trustDomain := by
  by_cases hp : hasPrefixGo subject "spiffe://" = true
  · rcases (hasPrefixGo_iff subject "spiffe://").mp hp with ⟨rest, rfl⟩
    have hp2 : hasPrefixGo ("spiffe://" ++ rest) "spiffe://" = true :=
      (hasPrefixGo_iff _ _).mpr ⟨rest, rfl⟩
    unfold isValidSPIFFEID
    rw [hp2, trimPrefixGo_append]
    simp only [Bool.not_true, Bool.false_eq_true, if_false, splitN2Go_eq]
    constructor
    · intro h
      exact ⟨rest, rfl, by simpa using h⟩
    · rintro ⟨other, heq, hdom⟩
      have hdata := congrArg String.data heq
      rw [String.data_append, String.data_append] at hdata
      have : rest = other := by
        apply String.ext
        exact List.append_cancel_left hdata
      subst this
      simpa using hdom
  · have hb : hasPrefixGo subject "spiffe://" = false := by
      cases h2 : hasPrefixGo subject "spiffe://"
      · rfl
      · exact absurd h2 hp
    unfold isValidSPIFFEID
    rw [hb]
    simp only [Bool.not_false, if_true, Bool.false_eq_true, false_iff]
    rintro ⟨rest, rfl, -⟩
    rw [(hasPrefixGo_iff _ _).mpr ⟨rest, rfl⟩] at hb
    exact Bool.noConfusion hb

/-- When every earlier test passes but the trust-domain test fails,
validateClaims rejects with the invalid trust domain message. -/
theorem validateClaims_invalid_domain (cfg : DaprSentryConfig) (now : Int)
    (c : daprSentryClaims)
    (hexp : expiryInPast now c = false)
    (hnbf : notBeforeInFuture now c = false)
    (haud : cfg.Audience = "" ∨ containsAudience c.Audience cfg.Audience = true)
    (hsub : c.Subject ≠ "")
    (hdom : isValidSPIFFEID c.Subject cfg.TrustDomain = false) :
    validateClaims cfg now c = Except.error (wrapErr ErrInvalidToken
      ("invalid trust domain in subject \"" ++ c.Subject ++ "\", expected \"" ++
        cfg.TrustDomain ++ "\"")) := by
  have h3 : (cfg.Audience ≠ "" && !containsAudience c.Audience cfg.Audience) = false := by
    rcases haud with h | h
    · simp [h]
    · simp [h]
  unfold validateClaims
  rw [hexp, hnbf, h3, hdom]
  simp [hsub]

/-- Fixture: verified claims with a pathless SPIFFE subject. -/
def claimsPathlessFix : daprSentryClaims :=
  { claimsFix with Subject := "spiffe://public" }

/-- Fixture: a verifier producing the pathless-subject claims under key
material 1. -/
def verifyPathlessFix : Nat → Except String daprSentryClaims :=
  fun k => if k == 1 then Except.ok claimsPathlessFix else Except.error "signature mismatch"

/-- Counterexample to C5: the claim rejects a pathless spiffe URI, but the
code accepts the subject spiffe://public against trust domain public, and
Authenticate succeeds on such a token. -/
theorem C5_counterexample :
    isValidSPIFFEID "spiffe://public" "public" = true ∧
    (Authenticate cfgFix 100 stFix envFix envFix
        (ParseResult.parsed [⟨"kid1"⟩] verifyPathlessFix)).2 =
      Except.ok (successIdentity claimsPathlessFix) := by
  exact ⟨by decide, by decide⟩

/-- C5 amended: the subject check accepts exactly the subjects that start
with the spiffe scheme and whose segment between the scheme and the first
following slash, or the whole remainder when no slash occurs, equals the
configured trust domain; a pathless spiffe URI with matching domain is
accepted; on failure the rejection is an invalid-token error whose message
names the invalid trust domain. -/
theorem C5_amended_subject_check (cfg : DaprSentryConfig) (now : Int)
    (c : daprSentryClaims)
    (hexp : expiryInPast now c = false)
    (hnbf : notBeforeInFuture now c = false)
    (haud : cfg.Audience = "" ∨ containsAudience c.Audience cfg.Audience = true)
    (hsub : c.Subject ≠ "") :
    (isValidSPIFFEID c.Subject cfg.TrustDomain = true ↔
      ∃ rest : String, c.Subject = "spiffe://" ++ rest ∧
        String.mk (rest.data.takeWhile (fun ch => ch ≠ '/')) = cfg.TrustDomain) ∧
    (isValidSPIFFEID c.Subject cfg.TrustDomain = true →
      validateClaims cfg now c = Except.ok (successIdentity c)) ∧
    (isValidSPIFFEID c.Subject cfg.TrustDomain = false →
      validateClaims cfg now c = Except.error (wrapErr ErrInvalidToken
        ("invalid trust domain in subject \"" ++ c.Subject ++ "\", expected \"" ++
          cfg.TrustDomain ++ "\""))) := by
  refine ⟨isValidSPIFFEID_iff c.Subject cfg.TrustDomain, ?_, ?_⟩
  · intro hdom
    exact validateClaims_ok cfg now c hexp hnbf haud hsub hdom
  · intro hdom
    exact validateClaims_invalid_domain cfg now c hexp hnbf haud hsub hdom

/-- Witness for the amended C5 at the pathless fixture claims. -/
theorem C5_witness :
    (isValidSPIFFEID claimsPathlessFix.Subject cfgFix.TrustDomain = true ↔
      ∃ rest : String, claimsPathlessFix.Subject = "spiffe://" ++ rest ∧
        String.mk (rest.data.takeWhile (fun ch => ch ≠ '/')) = cfgFix.TrustDomain) ∧
    (isValidSPIFFEID claimsPathlessFix.Subject cfgFix.TrustDomain = true →
      validateClaims cfgFix 100 claimsPathlessFix =
        Except.ok (successIdentity claimsPathlessFix)) ∧
    (isValidSPIFFEID claimsPathlessFix.Subject cfgFix.TrustDomain = false →
      validateClaims cfgFix 100 claimsPathlessFix =
        Except.error (wrapErr ErrInvalidToken
          ("invalid trust domain in subject \"" ++ claimsPathlessFix.Subject ++
            "\", expected \"" ++ cfgFix.TrustDomain ++ "\""))) :=
  C5_amended_subject_check cfgFix 100 claimsPathlessFix
    (by decide) (by decide) (Or.inr (by decide)) (by decide)

/-- Counterexample to C6: with an empty key ID and two cached keys, the key
resolution hands the verifier only the material of the first key, number 1,
while the cache also holds the distinct material 2; the verifier is never
given the whole set. -/
theorem C6_counterexample :
    getSigningKey cfgFix 100 ⟨some [⟨"a", 1⟩, ⟨"b", 2⟩], 50⟩ envFix envFix "" =
      (⟨some [⟨"a", 1⟩, ⟨"b", 2⟩], 50⟩, Except.ok 1) ∧
    (1 : Nat) ≠ 2 := by
  exact ⟨by decide, by decide⟩

/-- C6 amended: with an empty key ID the match step does select all cached
keys, but getSigningKey then returns only the raw material of the first
cached key, so the cryptographic verifier receives a single key, not the
whole set. -/
theorem C6_amended_first_key (cfg : DaprSentryConfig) (now : Int)
    (st : JWKSState) (envStale envMiss : FetchEnv) (k : JSONWebKey)
    (rest : List JSONWebKey)
    (hkeys : st.jwks = some (k :: rest))
    (hfresh : now - st.lastRefresh ≤ cfg.RefreshInterval) :
    selectMatchingKeys (k :: rest) "" = k :: rest ∧
    getSigningKey cfg now st envStale envMiss "" = (st, Except.ok k.Key) := by
  constructor
  · rfl
  · unfold getSigningKey
    rw [if_neg (not_lt.mpr hfresh)]
    simp [hkeys, selectMatchingKeys, jwksKeyByID]

/-- Witness for the amended C6 at a concrete two-key cache. -/
theorem C6_witness :
    selectMatchingKeys [⟨"a", 1⟩, ⟨"b", 2⟩] "" = [⟨"a", 1⟩, ⟨"b", 2⟩] ∧
    getSigningKey cfgFix 100 ⟨some [⟨"a", 1⟩, ⟨"b", 2⟩], 50⟩ envFix envFix "" =
      (⟨some [⟨"a", 1⟩, ⟨"b", 2⟩], 50⟩, Except.ok 1) :=
  C6_amended_first_key cfgFix 100 ⟨some [⟨"a", 1⟩, ⟨"b", 2⟩], 50⟩ envFix envFix
    ⟨"a", 1⟩ [⟨"b", 2⟩] rfl (by decide)

/-- C7: a successful JWKS refresh fully replaces the cached key set and
stamps lastRefresh with the current time; any failing refresh, at whichever
of its five fallible steps, leaves the cache state unchanged. -/
theorem C7_refresh_replaces_or_preserves (env : FetchEnv) (now : Int)
    (st : JWKSState) :
    (∀ keys : List JSONWebKey,
      env.reqErr = none → env.doErr = none → env.statusCode = 200 →
      env.readErr = none → env.parseResult = Except.ok keys →
      refreshJWKS env now st = (⟨some keys, now⟩, none)) ∧
    (∀ e : String, (refreshJWKS env now st).2 = some e →
      (refreshJWKS env now st).1 = st) := by
  obtain ⟨r, d, sc, rd, pr⟩ := env
  constructor
  · rintro keys rfl rfl rfl rfl hpr
    have hpr2 : pr = Except.ok keys := hpr
    subst hpr2
    simp [refreshJWKS]
  · intro e
    cases r
    · cases d
      · by_cases hsc : sc = 200
        · cases rd
          · cases pr <;> simp [refreshJWKS, hsc]
          · simp [refreshJWKS, hsc]
        · simp [refreshJWKS, hsc]
      · simp [refreshJWKS]
    · simp [refreshJWKS]

/-- Witness for C7: one successful refresh replacing the cache, one failing
refresh preserving it. -/
theorem C7_witness :
    refreshJWKS ⟨none, none, 200, none, Except.ok [⟨"a", 1⟩]⟩ 7 ⟨some [], 0⟩ =
      (⟨some [⟨"a", 1⟩], 7⟩, none) ∧
    (refreshJWKS ⟨none, some "boom", 200, none, Except.ok []⟩ 7 ⟨some [], 0⟩).1 =
      ⟨some [], 0⟩ :=
  ⟨(C7_refresh_replaces_or_preserves _ 7 _).1 [⟨"a", 1⟩] rfl rfl rfl rfl rfl,
   (C7_refresh_replaces_or_preserves _ 7 _).2 "failed to fetch JWKS: boom" (by decide)⟩

/-- Skip predicate written from the claim wording: some configured pattern
equals the path, or the pattern ends in a star and the path starts with the
pattern minus its trailing star. -/
def skipSpecClaim (skipPaths : List String) (path : String) : Prop :=
  ∃ p ∈ skipPaths, path = p ∨
    ∃ q : String, p = q ++ "*" ∧ ∃ r : String, path = q ++ r

/-- C4: shouldSkip returns true exactly on the paths described by the
skip-path claim. -/
theorem C4_shouldSkip_iff (skipPaths : List String) (path : String) :
    shouldSkip skipPaths path = true ↔ skipSpecClaim skipPaths path := by
  unfold shouldSkip skipSpecClaim
  rw [List.any_eq_true]
  constructor
  · rintro ⟨p, hp, hmatch⟩
    rw [Bool.or_eq_true] at hmatch
    refine ⟨p, hp, ?_⟩
    rcases hmatch with h | h
    · exact Or.inl (by simpa using h)
    · rw [Bool.and_eq_true] at h
      obtain ⟨hsuf, hpre⟩ := h
      rcases (hasSuffixGo_iff p "*").mp hsuf with ⟨q, rfl⟩
      rw [trimSuffixGo_append] at hpre
      rcases (hasPrefixGo_iff path q).mp hpre with ⟨r, hr⟩
      exact Or.inr ⟨q, rfl, r, hr⟩
  · rintro ⟨p, hp, h | ⟨q, rfl, r, rfl⟩⟩
    · exact ⟨p, hp, by simp [h]⟩
    · refine ⟨q ++ "*", hp, ?_⟩
      rw [Bool.or_eq_true]
      right
      rw [Bool.and_eq_true]
      refine ⟨(hasSuffixGo_iff _ _).mpr ⟨q, rfl⟩, ?_⟩
      rw [trimSuffixGo_append]
      exact (hasPrefixGo_iff _ _).mpr ⟨r, rfl⟩

/-- First component of the Authorization fallback of the extraction. -/
theorem extractFromAuthorization_fst (get : String → String) :
    (extractTokenWithSource.extractFromAuthorization get).1 =
      (if hasPrefixGo (toLowerGo (get "Authorization")) "bearer " then
        trimPrefixGo (dropCharsGo (get "Authorization") 7) " "
      else get "Authorization") := by
  unfold extractTokenWithSource.extractFromAuthorization
  by_cases h0 : get "Authorization" = ""
  · rw [h0]
    decide
  · rw [if_neg (by simpa using h0)]
    by_cases h1 : hasPrefixGo (toLowerGo (get "Authorization")) "bearer " = true
    · rw [if_pos h1, if_pos h1]
    · rw [if_neg h1, if_neg h1]

/-- Token extraction written from the claim wording: a configured custom
header that is neither empty nor Authorization and carries a nonempty value
wins raw; otherwise the Authorization value, with the seven character Bearer
mark stripped case-insensitively and at most one further leading space
trimmed, or taken whole when the mark is absent. -/
def extractTokenSpec (cfg : Config) (get : String → String) : String :=
  if cfg.DaprSentry.TokenHeader ≠ "" ∧ cfg.DaprSentry.TokenHeader ≠ "Authorization" ∧
      get cfg.DaprSentry.TokenHeader ≠ "" then
    get cfg.DaprSentry.TokenHeader
  else
    if hasPrefixGo (toLowerGo (get "Authorization")) "bearer " then
      trimPrefixGo (dropCharsGo (get "Authorization") 7) " "
    else get "Authorization"

/-- C3: the extracted token agrees with the claim wording at every request,
and when extraction is empty on a non-skipped authenticated request the
middleware rejects with the no-token body and invokes no authenticator. -/
theorem C3_token_extraction (cfg : Config) (auths : List AbsAuthenticator)
    (path : String) (get : String → String) :
    (extractTokenWithSource cfg get).1 = extractTokenSpec cfg get ∧
    (shouldSkip cfg.SkipPaths path = false → cfg.Enabled = true →
      cfg.Mode ≠ ModeDisabled → (extractTokenWithSource cfg get).1 = "" →
      Handler cfg auths path get =
        (HandlerResult.unauthorized "Unauthorized: no token provided", [])) := by
  constructor
  · by_cases h1 : cfg.DaprSentry.TokenHeader = ""
    · unfold extractTokenWithSource extractTokenSpec
      simp [h1, extractFromAuthorization_fst]
    · by_cases h2 : cfg.DaprSentry.TokenHeader = "Authorization"
      · unfold extractTokenWithSource extractTokenSpec
        simp [h2, extractFromAuthorization_fst]
      · by_cases h3 : get cfg.DaprSentry.TokenHeader = ""
        · unfold extractTokenWithSource extractTokenSpec
          simp [h1, h2, h3, extractFromAuthorization_fst]
        · unfold extractTokenWithSource extractTokenSpec
          simp [h1, h2, h3]
  · intro hskip hen hmode hemp
    unfold Handler
    rw [hskip]
    simp [hen, hmode, hemp]

/-- Fixture: middleware configuration using the Authorization header. -/
def cfgMwFix : Config :=
  { Enabled := true
    Mode := "dapr-sentry"
    SkipPaths := ["/livez"]
    OIDC := ⟨false, "", "", [], false⟩
    SPIFFE := ⟨false, "", "", "", []⟩
    DaprSentry := { cfgFix with TokenHeader := "" } }

/-- Fixture: request headers carrying a Bearer token. -/
def getBearerFix : String → String :=
  fun h => if h == "Authorization" then "Bearer abc" else ""

/-- Fixture: request headers carrying no token at all. -/
def getNoneFix : String → String := fun _ => ""

/-- Witness for C3: the extraction equality at a Bearer request, and the
no-token rejection at a tokenless request. -/
theorem C3_witness :
    (extractTokenWithSource cfgMwFix getBearerFix).1 =
      extractTokenSpec cfgMwFix getBearerFix ∧
    Handler cfgMwFix [] "/mcp" getNoneFix =
      (HandlerResult.unauthorized "Unauthorized: no token provided", []) :=
  ⟨(C3_token_extraction cfgMwFix [] "/mcp" getBearerFix).1,
   (C3_token_extraction cfgMwFix [] "/mcp" getNoneFix).2
     (by decide) rfl (by decide) (by decide)⟩

/-- Reduction of the Handler to the authenticator trial loop once the
request is not skipped, authentication is enabled and a nonempty token was
extracted. -/
theorem Handler_with_token (cfg : Config) (auths : List AbsAuthenticator)
    (path : String) (get : String → String) (t : String)
    (hskip : shouldSkip cfg.SkipPaths path = false)
    (hen : cfg.Enabled = true)
    (hmode : cfg.Mode ≠ ModeDisabled)
    (hext : (extractTokenWithSource cfg get).1 = t)
    (htok : t ≠ "") :
    Handler cfg auths path get =
      (match (tryAuthenticators auths t).1 with
       | some id =>
         (HandlerResult.passThrough (some id), (tryAuthenticators auths t).2)
       | none =>
         (HandlerResult.unauthorized "Unauthorized: invalid token",
           (tryAuthenticators auths t).2)) := by
  unfold Handler
  rw [hskip]
  simp [hen, hmode, hext, htok]

/-- When every authenticator in the list fails on the token, the trial loop
returns no identity and records every authenticator as invoked. -/
theorem tryAuthenticators_all_fail (auths : List AbsAuthenticator) (t : String)
    (hfail : ∀ a ∈ auths, ∃ err : AuthError, a.authenticate t = Except.error err) :
    tryAuthenticators auths t = (none, auths.map AbsAuthenticator.ModeTag) := by
  induction auths with
  | nil => rfl
  | cons a rest ih =>
    obtain ⟨err, herr⟩ := hfail a (List.mem_cons_self a rest)
    have hrest := ih (fun b hb => hfail b (List.mem_cons_of_mem a hb))
    unfold tryAuthenticators
    rw [herr, hrest]
    simp

/-- C8: with authenticators A then B where A fails and B succeeds on the
extracted token, the middleware invokes A before B, attaches exactly the
Identity B produced, whose AuthMethod is the mode of B, and invokes nothing
after B; and when every configured authenticator fails, the response is the
generic invalid-token 401 after all of them were tried, whatever their
errors were. -/
theorem C8_trial_order :
    (∀ (cfg : Config) (A B : AbsAuthenticator) (path : String)
      (get : String → String) (t : String) (id : Identity) (e : AuthError),
      shouldSkip cfg.SkipPaths path = false → cfg.Enabled = true →
      cfg.Mode ≠ ModeDisabled → (extractTokenWithSource cfg get).1 = t →
      t ≠ "" → A.authenticate t = Except.error e →
      B.authenticate t = Except.ok id → id.AuthMethod = B.ModeTag →
      Handler cfg [A, B] path get =
        (HandlerResult.passThrough (some id), [A.ModeTag, B.ModeTag]) ∧
      id.AuthMethod = B.ModeTag) ∧
    (∀ (cfg : Config) (auths : List AbsAuthenticator) (path : String)
      (get : String → String) (t : String),
      shouldSkip cfg.SkipPaths path = false → cfg.Enabled = true →
      cfg.Mode ≠ ModeDisabled → (extractTokenWithSource cfg get).1 = t →
      t ≠ "" →
      (∀ a ∈ auths, ∃ err : AuthError, a.authenticate t = Except.error err) →
      Handler cfg auths path get =
        (HandlerResult.unauthorized "Unauthorized: invalid token",
          auths.map AbsAuthenticator.ModeTag)) := by
  constructor
  · intro cfg A B path get t id e hskip hen hmode hext htok hA hB hmeth
    refine ⟨?_, hmeth⟩
    rw [Handler_with_token cfg [A, B] path get t hskip hen hmode hext htok]
    have htrial : tryAuthenticators [A, B] t = (some id, [A.ModeTag, B.ModeTag]) := by
      unfold tryAuthenticators
      rw [hA]
      unfold tryAuthenticators
      rw [hB]
    rw [htrial]
  · intro cfg auths path get t hskip hen hmode hext htok hfail
    rw [Handler_with_token cfg auths path get t hskip hen hmode hext htok]
    rw [tryAuthenticators_all_fail auths t hfail]

/-- Fixture: an authenticator that always fails, tagged oidc. -/
def failAuthFix : AbsAuthenticator :=
  ⟨ModeOIDC, fun _ => Except.error ErrInvalidToken⟩

/-- Fixture: the identity produced by the succeeding fixture authenticator. -/
def idSpiffeFix : Identity :=
  { Subject := "spiffe://public/ns/default/app"
    Issuer := "spiffe://public"
    Audience := ["server"]
    Email := ""
    Name := ""
    Claims := []
    AuthMethod := ModeSPIFFE }

/-- Fixture: an authenticator that always succeeds, tagged spiffe. -/
def okAuthFix : AbsAuthenticator :=
  ⟨ModeSPIFFE, fun _ => Except.ok idSpiffeFix⟩

/-- Witness for C8: the concrete hybrid pair, and a concrete all-fail list. -/
theorem C8_witness :
    (Handler cfgMwFix [failAuthFix, okAuthFix] "/mcp" getBearerFix =
      (HandlerResult.passThrough (some idSpiffeFix),
        [failAuthFix.ModeTag, okAuthFix.ModeTag]) ∧
      idSpiffeFix.AuthMethod = okAuthFix.ModeTag) ∧
    Handler cfgMwFix [failAuthFix, failAuthFix] "/mcp" getBearerFix =
      (HandlerResult.unauthorized "Unauthorized: invalid token",
        [failAuthFix, failAuthFix].map AbsAuthenticator.ModeTag) :=
  ⟨C8_trial_order.1 cfgMwFix failAuthFix okAuthFix "/mcp" getBearerFix "abc"
      idSpiffeFix ErrInvalidToken (by decide) rfl (by decide) (by decide)
      (by decide) rfl rfl rfl,
   C8_trial_order.2 cfgMwFix [failAuthFix, failAuthFix] "/mcp" getBearerFix "abc"
      (by decide) rfl (by decide) (by decide) (by decide)
      (by
        intro a ha
        refine ⟨ErrInvalidToken, ?_⟩
        simp only [List.mem_cons, List.not_mem_nil, or_false] at ha
        rcases ha with rfl | rfl <;> rfl)⟩

/-- C9: when no custom token header is configured and the Authorization
value is the bare Bearer mark, in any letter case or with one extra trailing
space, extraction yields the empty token and the middleware classifies the
request as token-less: 401 with the no-token body and no authenticator
invoked. -/
theorem C9_bare_bearer_no_token (cfg : Config) (auths : List AbsAuthenticator)
    (path : String) (get : String → String) (s : String)
    (hh : cfg.DaprSentry.TokenHeader = "" ∨ cfg.DaprSentry.TokenHeader = "Authorization")
    (hs : get "Authorization" = s)
    (hform : toLowerGo s = "bearer " ∨ s = "Bearer  ")
    (hskip : shouldSkip cfg.SkipPaths path = false)
    (hen : cfg.Enabled = true)
    (hmode : cfg.Mode ≠ ModeDisabled) :
    (extractTokenWithSource cfg get).1 = "" ∧
    Handler cfg auths path get =
      (HandlerResult.unauthorized "Unauthorized: no token provided", []) := by
  have hfall : extractTokenWithSource cfg get =
      extractTokenWithSource.extractFromAuthorization get := by
    unfold extractTokenWithSource
    rcases hh with h | h <;> simp [h]
  have hemp : (extractTokenWithSource cfg get).1 = "" := by
    rw [hfall, extractFromAuthorization_fst, hs]
    rcases hform with h | h
    · rw [h, if_pos (by decide), dropCharsGo_of_toLowerGo_bearer s h]
      decide
    · subst h
      decide
  refine ⟨hemp, ?_⟩
  unfold Handler
  rw [hskip]
  simp [hen, hmode, hemp]

/-- Fixture: request headers carrying a bare Bearer mark and nothing after
it. -/
def getBareBearerFix : String → String :=
  fun h => if h == "Authorization" then "BEARER " else ""

/-- Witness for C9 at the concrete bare upper-case Bearer request. -/
theorem C9_witness :
    (extractTokenWithSource cfgMwFix getBareBearerFix).1 = "" ∧
    Handler cfgMwFix [failAuthFix] "/mcp" getBareBearerFix =
      (HandlerResult.unauthorized "Unauthorized: no token provided", []) :=
  C9_bare_bearer_no_token cfgMwFix [failAuthFix] "/mcp" getBareBearerFix
    "BEARER " (Or.inl rfl) rfl (Or.inl (by decide)) (by decide) rfl (by decide)

/-- C10: with an empty authenticator list, a non-skipped enabled request
with a nonempty extracted token is rejected with the generic invalid-token
401, no authenticator having run: the middleware never passes a request
through merely because no authenticator exists. -/
theorem C10_empty_authenticator_list (cfg : Config) (path : String)
    (get : String → String)
    (hskip : shouldSkip cfg.SkipPaths path = false)
    (hen : cfg.Enabled = true)
    (hmode : cfg.Mode ≠ ModeDisabled)
    (htok : (extractTokenWithSource cfg get).1 ≠ "") :
    Handler cfg [] path get =
      (HandlerResult.unauthorized "Unauthorized: invalid token", []) := by
  unfold Handler
  rw [hskip]
  simp [hen, hmode, htok, tryAuthenticators]

/-- Witness for C10 at the concrete Bearer request with no authenticators. -/
theorem C10_witness :
    Handler cfgMwFix [] "/mcp" getBearerFix =
      (HandlerResult.unauthorized "Unauthorized: invalid token", []) :=
  C10_empty_authenticator_list cfgMwFix "/mcp" getBearerFix
    (by decide) rfl (by decide) (by decide)

end DaprAuth
